import Mathlib

/-!
# Verification of the CSV_search ranking core

Shallow embedding of the search ranking and query-expansion pipeline of the
CSV_search repository (`src/search/search-engine.ts` and the `QueryProcessor`
class) in Lean 4, together with theorems settling the frozen claims about it.

JavaScript strings are modelled as `List Char`; JavaScript numbers are modelled
exactly (no rounding), but the IEEE special values `NaN` and `±Infinity`, which
are visible to the control flow of the scorers, are modelled by the `JSNum`
type.  `Math.log` and `Math.sqrt` are modelled by `Real.log` and `Real.sqrt`.
-/

/-- JavaScript strings, modelled as lists of characters. -/
abbrev Str := List Char

/-- `[a-z0-9]`: the characters a token may consist of (after lower-casing). -/
def isAlphaNumLower (c : Char) : Bool :=
  (decide ('a' ≤ c) && decide (c ≤ 'z')) || (decide ('0' ≤ c) && decide (c ≤ '9'))

/-- JavaScript `\s` (restricted to the ASCII whitespace actually relevant here). -/
def isWsChar (c : Char) : Bool :=
  c == ' ' || c == '\t' || c == '\n' || c == '\r'

/-- `String.prototype.toLowerCase`, per character (ASCII). -/
def lowerStr (s : Str) : Str := s.map Char.toLower

/-- `String.prototype.split` on a character class: splits at every character
satisfying `p`, keeping the (possibly empty) fragments between separators,
exactly as a JavaScript regex split on `[p]+` followed by a length filter
behaves. -/
def splitChars (p : Char → Bool) : Str → List Str
  | [] => [[]]
  | c :: cs =>
    match splitChars p cs with
    | [] => [[]]
    | t :: ts => if p c then [] :: t :: ts else (c :: t) :: ts

/-- Does `s` start with `pat`?  (`String.prototype.startsWith`.) -/
def startsWithChars : Str → Str → Bool
  | [], _ => true
  | _ :: _, [] => false
  | p :: ps, c :: cs => p == c && startsWithChars ps cs

/-- Does `s` end with `pat`?  (`String.prototype.endsWith`.) -/
def endsWithChars (pat s : Str) : Bool :=
  startsWithChars pat.reverse s.reverse

/-- Does `s` contain `pat` as a contiguous substring?
(`String.prototype.includes`.) -/
def hasSub (pat : Str) : Str → Bool
  | [] => startsWithChars pat []
  | c :: cs => startsWithChars pat (c :: cs) || hasSub pat cs

/-- `String.prototype.trim`. -/
def trimChars (s : Str) : Str :=
  ((s.dropWhile isWsChar).reverse.dropWhile isWsChar).reverse

/-- Helper for `dedupKeepFirst`: drop every element already in `seen`,
threading the elements kept so far. -/
def dedupSeen : List Str → List Str → List Str
  | _, [] => []
  | seen, x :: xs =>
    if x ∈ seen then dedupSeen seen xs else x :: dedupSeen (x :: seen) xs

/-- `[...new Set(xs)]`: deduplication keeping the first occurrence,
as JavaScript `Set` iteration order does. -/
def dedupKeepFirst (l : List Str) : List Str := dedupSeen [] l

/-- `Array.prototype.join(" OR ")` (specialised to a general separator). -/
def joinSep (sep : Str) : List Str → Str
  | [] => []
  | [x] => x
  | x :: y :: rest => x ++ sep ++ joinSep sep (y :: rest)

/-! ## Query processor (`QueryProcessor` class)

From the repository's query-processor source: options, the `ProcessedQuery`
shape, the local fallback expansion, and the Gemini-response parsing. -/

/-- `QueryProcessorOptions` with the `DEFAULT_OPTIONS` defaults. -/
structure QueryProcessorOptions where
  maxSynonymsPerTerm : Nat := 3
  maxRelatedConcepts : Nat := 5

/-- The `ProcessedQuery` record produced by query expansion. -/
structure ProcessedQuery where
  original : Str
  synonyms : List (List Str)
  relatedConcepts : List Str
  alternativePhrases : List Str
  entities : List Str
  expandedQuery : Str
deriving DecidableEq

/-- `createBasicProcessedQuery`: the minimal fallback query. -/
def createBasicProcessedQuery (query : Str) : ProcessedQuery :=
  { original := query
    synonyms := []
    relatedConcepts := []
    alternativePhrases := [query]
    entities := (splitChars isWsChar query).filter (fun t => 2 < t.length)
    expandedQuery := query }

/-- `buildExpandedQuery`: original query, then all flattened non-empty
synonyms, then up to 3 non-empty related concepts, joined with " OR ". -/
def buildExpandedQuery (original : Str) (synonyms : List (List Str))
    (relatedConcepts : List Str) : Str :=
  let flatSynonyms := synonyms.flatten.filter (fun s => trimChars s ≠ [])
  let topRelatedConcepts := (relatedConcepts.take 3).filter (fun c => trimChars c ≠ [])
  joinSep (" OR ".toList) (original :: (flatSynonyms ++ topRelatedConcepts))

/-- The static synonym table (`commonPairs`) of `getBasicSynonyms`. -/
def commonPairs : List (Str × List Str) :=
  [ ("good".toList, ["great".toList, "excellent".toList, "best".toList])
  , ("bad".toList, ["poor".toList, "terrible".toList, "worst".toList])
  , ("big".toList, ["large".toList, "huge".toList, "enormous".toList])
  , ("small".toList, ["tiny".toList, "little".toList, "compact".toList])
  , ("fast".toList, ["quick".toList, "rapid".toList, "swift".toList])
  , ("slow".toList, ["sluggish".toList, "gradual".toList, "leisurely".toList])
  , ("buy".toList, ["purchase".toList, "acquire".toList, "get".toList])
  , ("sell".toList, ["offer".toList, "trade".toList, "market".toList])
  , ("car".toList, ["vehicle".toList, "automobile".toList, "truck".toList])
  , ("house".toList, ["home".toList, "residence".toList, "building".toList])
  , ("job".toList, ["work".toList, "career".toList, "position".toList])
  , ("money".toList, ["cash".toList, "funds".toList, "currency".toList])
  , ("business".toList, ["company".toList, "firm".toList, "enterprise".toList])
  , ("person".toList, ["individual".toList, "people".toList, "user".toList]) ]

/-- `getBasicSynonyms`: morphological variants, then static-table entries,
deduplicated, without the term itself, capped at `maxSynonymsPerTerm`. -/
def getBasicSynonyms (opts : QueryProcessorOptions) (term : Str) : List Str :=
  let lowerTerm := lowerStr term
  let s1 : List Str :=
    if endsWithChars ("s".toList) lowerTerm then [lowerTerm.dropLast]
    else [lowerTerm ++ "s".toList]
  let s2 : List Str :=
    if ¬ startsWithChars ("un".toList) lowerTerm then ["un".toList ++ lowerTerm]
    else []
  let s3 : List Str :=
    if ¬ endsWithChars ("ing".toList) lowerTerm ∧ ¬ endsWithChars ("ed".toList) lowerTerm then
      if endsWithChars ("e".toList) lowerTerm then
        [lowerTerm ++ "d".toList, lowerTerm.dropLast ++ "ing".toList]
      else
        [lowerTerm ++ "ed".toList, lowerTerm ++ "ing".toList]
    else []
  let s4 : List Str :=
    match commonPairs.lookup lowerTerm with
    | some entries => entries
    | none => []
  ((dedupKeepFirst (s1 ++ s2 ++ s3 ++ s4)).filter
      (fun s => lowerStr s ≠ lowerTerm)).take opts.maxSynonymsPerTerm

/-- The static domain-keyword table (`domainConcepts`), in insertion order. -/
def domainConcepts : List (Str × List Str) :=
  [ ("business".toList,
      ["company".toList, "startup".toList, "entrepreneur".toList, "market".toList, "industry".toList])
  , ("technology".toList,
      ["software".toList, "hardware".toList, "digital".toList, "innovation".toList, "tech".toList])
  , ("finance".toList,
      ["money".toList, "investment".toList, "banking".toList, "capital".toList, "funding".toList])
  , ("health".toList,
      ["medical".toList, "wellness".toList, "healthcare".toList, "fitness".toList, "treatment".toList])
  , ("education".toList,
      ["learning".toList, "school".toList, "teaching".toList, "academic".toList, "training".toList])
  , ("marketing".toList,
      ["advertising".toList, "promotion".toList, "branding".toList, "sales".toList, "market".toList])
  , ("science".toList,
      ["research".toList, "discovery".toList, "laboratory".toList, "experiment".toList, "study".toList])
  , ("art".toList,
      ["design".toList, "creative".toList, "artistic".toList, "visual".toList, "aesthetic".toList]) ]

/-- `generateBasicRelatedConcepts`: first matching domain's terms, plus
query-shape additions, plus adjacent-term pairs, deduplicated and capped. -/
def generateBasicRelatedConcepts (opts : QueryProcessorOptions)
    (query : Str) (terms : List Str) : List Str :=
  let lowerQuery := lowerStr query
  let domain : List Str :=
    match domainConcepts.find? (fun kv => hasSub kv.1 lowerQuery) with
    | some kv => kv.2
    | none => []
  let shape : List Str :=
    if hasSub ("how to".toList) lowerQuery then
      ["guide".toList, "tutorial".toList, "instructions".toList, "steps".toList]
    else if hasSub ("what is".toList) lowerQuery then
      ["definition".toList, "explanation".toList, "meaning".toList, "description".toList]
    else if hasSub ("best".toList) lowerQuery then
      ["top".toList, "recommended".toList, "highest rated".toList, "premium".toList]
    else []
  let pairs : List Str :=
    if 2 ≤ terms.length then
      (terms.zip terms.tail).map (fun ab => ab.1 ++ " and ".toList ++ ab.2)
    else []
  (dedupKeepFirst (domain ++ shape ++ pairs)).take opts.maxRelatedConcepts

/-- The shape of the JSON object the Gemini prompt requests; the result of a
successful `JSON.parse` of the extracted span, with each `parsed.x || default`
fallback already applied.  `JSON.parse` itself is a platform builtin (not
repository code) and is modelled as an abstract `Str → Option GeminiParsed`
argument of `parseGeminiResponse`. -/
structure GeminiParsed where
  synonyms : List (List Str) := []
  relatedConcepts : List Str := []
  alternativePhrases : List Str := []
  entities : List Str := []

/-- For the fenced-code-block alternative of the extraction regex: the lazy
`([\s\S]*?)` group, i.e. the content before the first subsequent triple
backtick; `none` when no closing fence exists (the alternative fails). -/
def closeFence : Str → Option Str
  | [] => none
  | c :: rest =>
    if startsWithChars ("\x60\x60\x60".toList) (c :: rest) then some []
    else (closeFence rest).map (fun g => c :: g)

/-- A successful match of the extraction regex at the current position:
either a fenced code block (with its group-1 content) or a brace-delimited
span. -/
inductive JsonSpan where
  | fenced (group1 : Str)
  | braces (whole : Str)
deriving DecidableEq

/-- Try the fenced-code-block alternative of the regex starting exactly at
`cs`: three backticks, an optional literal `json`, the lazy content group,
and a closing three backticks. -/
def matchFencedAt (cs : Str) : Option Str :=
  if startsWithChars ("\x60\x60\x60".toList) cs then
    let rest := cs.drop 3
    let rest2 := if startsWithChars ("json".toList) rest then rest.drop 4 else rest
    closeFence rest2
  else none

/-- The index (from the front) just past the last `}` in `cs`, if any. -/
def lastBraceEnd (cs : Str) : Option Nat :=
  match cs.reverse.indexOf? '}' with
  | some k => some (cs.length - k)
  | none => none

/-- Model of `response.match(/` + "```" + `(?:json)?([\s\S]*?)` + "```" +
`|\{[\s\S]*\}/)`: scan left to right; at the first position where an
alternative matches, prefer the fenced alternative, otherwise the greedy
brace-delimited span (first `{` to the last `}`). -/
def regexScan : Str → Option JsonSpan
  | [] => none
  | c :: rest =>
    match matchFencedAt (c :: rest) with
    | some g => some (JsonSpan.fenced g)
    | none =>
      if c = '{' then
        match lastBraceEnd (c :: rest) with
        | some n => some (JsonSpan.braces ((c :: rest).take n))
        | none => regexScan rest
      else regexScan rest

/-- From the regex match to the string handed to `JSON.parse`: group 1
(trimmed) for a fenced block, else the whole match; then the `{`/`}`
patch-up. -/
def extractJsonStr (span : JsonSpan) : Str :=
  let jsonStr :=
    match span with
    | JsonSpan.fenced g => trimChars g
    | JsonSpan.braces w => w
  let jsonStr2 := if ¬ startsWithChars ("\x7b".toList) jsonStr then '{' :: jsonStr else jsonStr
  if ¬ endsWithChars ("\x7d".toList) jsonStr2 then jsonStr2 ++ "\x7d".toList else jsonStr2

/-- `parseGeminiResponse`: extract a JSON-like span from the raw model
response, parse it, and build the `ProcessedQuery`; any failure is caught
inside this function and yields the basic processed query. -/
def parseGeminiResponse (opts : QueryProcessorOptions)
    (jsonParse : Str → Option GeminiParsed)
    (response originalQuery : Str) : ProcessedQuery :=
  match regexScan response with
  | none => createBasicProcessedQuery originalQuery
  | some span =>
    match jsonParse (extractJsonStr span) with
    | none => createBasicProcessedQuery originalQuery
    | some parsed =>
      let synonyms := parsed.synonyms
      let relatedConcepts := parsed.relatedConcepts.take opts.maxRelatedConcepts
      let alternativePhrases := parsed.alternativePhrases.take 3
      let entities := parsed.entities
      { original := originalQuery
        synonyms := synonyms
        relatedConcepts := relatedConcepts
        alternativePhrases := alternativePhrases
        entities := entities
        expandedQuery := buildExpandedQuery originalQuery synonyms relatedConcepts }

/-- `localQueryProcessing`: the deterministic local fallback expansion. -/
def localQueryProcessing (opts : QueryProcessorOptions) (query : Str) : ProcessedQuery :=
  let terms := (splitChars isWsChar query).filter (fun t => 2 < t.length)
  let synonyms := terms.map (getBasicSynonyms opts)
  let relatedConcepts := generateBasicRelatedConcepts opts query terms
  { original := query
    synonyms := synonyms
    relatedConcepts := relatedConcepts
    alternativePhrases := [query]
    entities := terms
    expandedQuery := buildExpandedQuery query synonyms relatedConcepts }

/-! ## JavaScript number model

The scorers divide by quantities that can be zero (`Math.sqrt(docLength)`,
`this.averageDocumentLength`), so the IEEE special values are visible in
their results.  `JSNum` models a JavaScript number exactly: a finite value
(as a real number, rounding not modelled), `Infinity`, `-Infinity`, or
`NaN`.  (`-0` is not distinguished from `0`; no operation below depends on
the distinction.) -/

inductive JSNum where
  | fin (x : ℝ)
  | inf
  | ninf
  | nan
deriving Inhabited

namespace JSNum

/-- JavaScript `+`. -/
noncomputable def add : JSNum → JSNum → JSNum
  | nan, _ => nan
  | _, nan => nan
  | fin a, fin b => fin (a + b)
  | fin _, inf => inf
  | fin _, ninf => ninf
  | inf, fin _ => inf
  | ninf, fin _ => ninf
  | inf, inf => inf
  | ninf, ninf => ninf
  | inf, ninf => nan
  | ninf, inf => nan

/-- JavaScript `-`. -/
noncomputable def sub : JSNum → JSNum → JSNum
  | nan, _ => nan
  | _, nan => nan
  | fin a, fin b => fin (a - b)
  | fin _, inf => ninf
  | fin _, ninf => inf
  | inf, fin _ => inf
  | ninf, fin _ => ninf
  | inf, inf => nan
  | ninf, ninf => nan
  | inf, ninf => inf
  | ninf, inf => ninf

/-- JavaScript `*`. -/
noncomputable def mul : JSNum → JSNum → JSNum
  | nan, _ => nan
  | _, nan => nan
  | fin a, fin b => fin (a * b)
  | fin a, inf => if a = 0 then nan else if 0 < a then inf else ninf
  | fin a, ninf => if a = 0 then nan else if 0 < a then ninf else inf
  | inf, fin b => if b = 0 then nan else if 0 < b then inf else ninf
  | ninf, fin b => if b = 0 then nan else if 0 < b then ninf else inf
  | inf, inf => inf
  | ninf, ninf => inf
  | inf, ninf => ninf
  | ninf, inf => ninf

/-- JavaScript `/`. -/
noncomputable def div : JSNum → JSNum → JSNum
  | nan, _ => nan
  | _, nan => nan
  | fin a, fin b =>
    if b = 0 then (if a = 0 then nan else if 0 < a then inf else ninf)
    else fin (a / b)
  | fin _, inf => fin 0
  | fin _, ninf => fin 0
  | inf, fin b => if 0 ≤ b then inf else ninf
  | ninf, fin b => if 0 ≤ b then ninf else inf
  | inf, inf => nan
  | inf, ninf => nan
  | ninf, inf => nan
  | ninf, ninf => nan

/-- JavaScript `Math.sqrt`. -/
noncomputable def sqrt : JSNum → JSNum
  | fin x => if 0 ≤ x then fin (Real.sqrt x) else nan
  | inf => inf
  | ninf => nan
  | nan => nan

/-- JavaScript `Math.log`. -/
noncomputable def log : JSNum → JSNum
  | fin x => if 0 < x then fin (Real.log x) else if x = 0 then ninf else nan
  | inf => inf
  | ninf => nan
  | nan => nan

/-- JavaScript `<=` (any comparison involving `NaN` is false). -/
def le : JSNum → JSNum → Prop
  | nan, _ => False
  | _, nan => False
  | fin a, fin b => a ≤ b
  | fin _, inf => True
  | fin _, ninf => False
  | inf, fin _ => False
  | ninf, fin _ => True
  | inf, inf => True
  | ninf, ninf => True
  | ninf, inf => True
  | inf, ninf => False

/-- JavaScript `<` (any comparison involving `NaN` is false). -/
def lt : JSNum → JSNum → Prop
  | nan, _ => False
  | _, nan => False
  | fin a, fin b => a < b
  | fin _, inf => True
  | fin _, ninf => False
  | inf, fin _ => False
  | ninf, fin _ => True
  | inf, inf => False
  | ninf, ninf => False
  | ninf, inf => True
  | inf, ninf => False

/-- Is this number finite (neither `NaN` nor `±Infinity`)?
(`Number.isFinite`.) -/
def isFinite : JSNum → Bool
  | fin _ => true
  | _ => false

/-- The real value of a finite `JSNum` (0 for the special values); used only
to state and prove facts about lists of finite scores. -/
def toReal : JSNum → ℝ
  | fin x => x
  | _ => 0

end JSNum

/-! ## Search engine (`SearchEngine` class) -/

/-- The `bm25Params` option record (both fields optional in the source). -/
structure BM25Params where
  k1 : Option ℝ := none
  b : Option ℝ := none

/-- `SearchEngineOptions`, restricted to the fields the ranking core reads,
with the merged `DEFAULT_OPTIONS` defaults. -/
structure SearchEngineOptions where
  maxResults : Nat := 10
  useBM25 : Bool := true
  bm25Params : Option BM25Params := some { k1 := some 1.2, b := some 0.75 }

/-- The `DEFAULT_OPTIONS` constant. -/
def DEFAULT_OPTIONS : SearchEngineOptions := {}

/-- JavaScript `x || d` on an optional numeric configuration value:
`undefined` and the falsy number `0` both select the default. -/
noncomputable def jsOrNum : Option ℝ → ℝ → ℝ
  | none, d => d
  | some x, d => if x = 0 then d else x

/-- The effective `k1`: `this.options.bm25Params?.k1 || 1.2`. -/
noncomputable def resolveK1 (opts : SearchEngineOptions) : ℝ :=
  jsOrNum (opts.bm25Params.bind BM25Params.k1) 1.2

/-- The effective `b`: `this.options.bm25Params?.b || 0.75`. -/
noncomputable def resolveB (opts : SearchEngineOptions) : ℝ :=
  jsOrNum (opts.bm25Params.bind BM25Params.b) 0.75

/-- A processed document as consumed by the ranking core (`ProcessedContent`
restricted to the fields the ranking core reads). -/
structure ProcessedContent where
  url : Str
  title : Str
  text : Str

/-- `tokenize`: lower-case, split on runs of non-alphanumeric characters,
discard tokens of length ≤ 2. -/
def tokenize (text : Str) : List Str :=
  (splitChars (fun c => ¬ isAlphaNumLower c) (lowerStr text)).filter
    (fun t => 2 < t.length)

/-- The per-search corpus statistics (the `documentFrequencies`,
`documentCount` and `averageDocumentLength` fields of `SearchEngine`).
`documentFrequencies` models the `Map` together with its
`.get(·) || 0` read. -/
structure CorpusStatistics where
  documentFrequencies : Str → Nat
  documentCount : Nat
  averageDocumentLength : ℝ

/-- `updateDocumentStatistics`: document count, average token count
(divisor guarded by `Math.max(1, documentCount)`), and per-term document
frequency counted over each document's token *set*. -/
noncomputable def updateDocumentStatistics (documents : List ProcessedContent) : CorpusStatistics :=
  { documentFrequencies := fun term =>
      (documents.filter (fun doc => term ∈ tokenize doc.text)).length
    documentCount := documents.length
    averageDocumentLength :=
      ((documents.map (fun doc => (tokenize doc.text).length)).sum : ℝ) /
        (max 1 documents.length : ℕ) }

/-- `getAllQueryTerms`: tokenized original query, synonym-group members and
entities; deduplicated, filtered to length > 2, then lower-cased (in the
source, deduplication happens *before* lower-casing). -/
def getAllQueryTerms (query : ProcessedQuery) : List Str :=
  let terms := tokenize query.original ++ query.synonyms.flatten ++ query.entities
  ((dedupKeepFirst terms).filter (fun term => 2 < term.length)).map lowerStr

/-- `calculateTermFrequency`: exact case-insensitive token matches. -/
def calculateTermFrequency (term : Str) (docTerms : List Str) : Nat :=
  (docTerms.filter (fun docTerm => lowerStr docTerm = lowerStr term)).length

/-- `calculateInverseDocumentFrequency`:
`Math.log(1 + documentCount / (documentFrequencies.get(term) || 0) + 1))`. -/
noncomputable def calculateInverseDocumentFrequency
    (stats : CorpusStatistics) (term : Str) : JSNum :=
  let docFreq := stats.documentFrequencies (lowerStr term)
  JSNum.log (JSNum.add (JSNum.fin 1)
    (JSNum.div (JSNum.fin stats.documentCount) (JSNum.fin ((docFreq : ℝ) + 1))))

/-- The body of the TF-IDF loop: the per-term contribution `tf * idf`. -/
noncomputable def tfidfTermScore (stats : CorpusStatistics)
    (docTerms : List Str) (term : Str) : JSNum :=
  let tf := calculateTermFrequency term docTerms
  let idf := calculateInverseDocumentFrequency stats term
  JSNum.mul (JSNum.fin tf) idf

/-- `calculateTFIDFScore`: sum of per-term `tf * idf`, normalized by
`Math.sqrt(docLength)`. -/
noncomputable def calculateTFIDFScore (stats : CorpusStatistics)
    (query : ProcessedQuery) (document : ProcessedContent) : JSNum :=
  let docTerms := tokenize document.text
  let docLength := docTerms.length
  let queryTerms := getAllQueryTerms query
  let score := queryTerms.foldl
    (fun acc term => JSNum.add acc (tfidfTermScore stats docTerms term))
    (JSNum.fin 0)
  JSNum.div score (JSNum.sqrt (JSNum.fin docLength))

/-- The body of the BM25 loop: the per-term contribution
`idf * ((tf * (k1 + 1)) / (tf + k1 * (1 - b + b * (docLength / avg))))`. -/
noncomputable def bm25TermScore (k1 b : ℝ) (stats : CorpusStatistics)
    (docTerms : List Str) (term : Str) : JSNum :=
  let tf := calculateTermFrequency term docTerms
  let idf := calculateInverseDocumentFrequency stats term
  let docLength := docTerms.length
  let normalization := JSNum.add (JSNum.fin (1 - b))
    (JSNum.mul (JSNum.fin b)
      (JSNum.div (JSNum.fin docLength) (JSNum.fin stats.averageDocumentLength)))
  JSNum.mul idf
    (JSNum.div (JSNum.mul (JSNum.fin tf) (JSNum.fin (k1 + 1)))
      (JSNum.add (JSNum.fin tf) (JSNum.mul (JSNum.fin k1) normalization)))

/-- `calculateBM25Score`: sum of per-term BM25 contributions. -/
noncomputable def calculateBM25Score (opts : SearchEngineOptions)
    (stats : CorpusStatistics) (query : ProcessedQuery)
    (document : ProcessedContent) : JSNum :=
  let docTerms := tokenize document.text
  let k1 := resolveK1 opts
  let b := resolveB opts
  let queryTerms := getAllQueryTerms query
  queryTerms.foldl
    (fun acc term => JSNum.add acc (bm25TermScore k1 b stats docTerms term))
    (JSNum.fin 0)

/-- The hostname and pathname of a parsed URL. -/
structure URLParts where
  hostname : Str
  pathname : Str
deriving DecidableEq

/-- Model of the platform's WHATWG `new URL(url)` constructor, restricted to
hierarchical `scheme://host/path` URLs: requires a nonempty all-letter scheme
followed by `://` and a nonempty host; the pathname runs from the first `/`
after the host to the end (stopping at `?` or `#`), defaulting to `/`.
`none` models the constructor throwing. -/
def parseURL (url : Str) : Option URLParts :=
  let fix := "://".toList
  let rec findSep : Str → Option (Str × Str)
    | [] => none
    | c :: cs =>
      if startsWithChars fix (c :: cs) then some ([], (c :: cs).drop 3)
      else (findSep cs).map (fun p => (c :: p.1, p.2))
  match findSep url with
  | none => none
  | some (scheme, rest) =>
    if scheme ≠ [] ∧ scheme.all Char.isAlpha then
      let hostAndPath := rest.takeWhile (fun c => c ≠ '?' ∧ c ≠ '#')
      let hostname := hostAndPath.takeWhile (fun c => c ≠ '/')
      let pathname := hostAndPath.dropWhile (fun c => c ≠ '/')
      if hostname ≠ [] then
        some { hostname := hostname
               pathname := if pathname = [] then "/".toList else pathname }
      else none
    else none

/-- The boosts record returned by `calculateURLBoosts`. -/
structure URLBoosts where
  hostnameBoost : ℚ
  pathBoost : ℚ
deriving DecidableEq

/-- `calculateURLBoosts`: +0.2 per query term contained in the lower-cased
hostname, +0.1 per query term contained in the lower-cased path; a URL the
constructor rejects yields zero boosts (the `catch` branch). -/
def calculateURLBoosts (url : Str) (query : ProcessedQuery) : URLBoosts :=
  match parseURL url with
  | none => { hostnameBoost := 0, pathBoost := 0 }
  | some urlObj =>
    let hostname := lowerStr urlObj.hostname
    let path := lowerStr urlObj.pathname
    let queryTerms := getAllQueryTerms query
    { hostnameBoost := queryTerms.foldl
        (fun acc term => if hasSub (lowerStr term) hostname then acc + 0.2 else acc) 0
      pathBoost := queryTerms.foldl
        (fun acc term => if hasSub (lowerStr term) path then acc + 0.1 else acc) 0 }

/-- The sentence list of `createSnippet`: split on `.`, `!`, `?` and drop
whitespace-only fragments. -/
def snippetSentences (text : Str) : List Str :=
  (splitChars (fun c => c == '.' || c == '!' || c == '?') text).filter
    (fun s => 0 < (trimChars s).length)

/-- The per-sentence score of `createSnippet`: how many query terms the
sentence contains (case-insensitive substring match). -/
def sentenceScore (queryTerms : List Str) (sentence : Str) : Nat :=
  (queryTerms.filter (fun term => hasSub (lowerStr term) (lowerStr sentence))).length

/-- `createSnippet`: pick the highest-scoring sentence (stable sort, so the
first either sentence among equal scores); fall back to the first 200
characters of the text; truncate with an ellipsis where the source does. -/
def createSnippet (document : ProcessedContent) (query : ProcessedQuery) : Str :=
  let text := document.text
  let queryTerms := getAllQueryTerms query
  let sentences := snippetSentences text
  let scoredSentences := sentences.map (fun s => (s, sentenceScore queryTerms s))
  let sorted := scoredSentences.mergeSort (fun a b => decide (b.2 ≤ a.2))
  let fallback := text.take 200 ++ (if 200 < text.length then "...".toList else [])
  match sorted with
  | [] => fallback
  | top :: _ =>
    if 0 < top.2 then
      let snippet := trimChars top.1
      if 200 < snippet.length then snippet.take 197 ++ "...".toList else snippet
    else fallback

/-- The `RankedSearchResult` record. -/
structure RankedSearchResult where
  url : Str
  title : Str
  snippet : Str
  score : JSNum
  finalScore : JSNum
  hostnameBoost : ℚ
  pathBoost : ℚ

/-- The per-document result assembly of `rankResults` (the `documents.map`
step, before sorting). -/
noncomputable def computeResults (opts : SearchEngineOptions)
    (stats : CorpusStatistics) (documents : List ProcessedContent)
    (query : ProcessedQuery) : List RankedSearchResult :=
  documents.map (fun doc =>
    let score :=
      if opts.useBM25 then calculateBM25Score opts stats query doc
      else calculateTFIDFScore stats query doc
    let urlBoosts := calculateURLBoosts doc.url query
    let finalScore := JSNum.mul score
      (JSNum.fin (1 + (urlBoosts.hostnameBoost : ℝ) + (urlBoosts.pathBoost : ℝ)))
    { url := doc.url
      title := doc.title
      snippet := createSnippet doc query
      score := score
      finalScore := finalScore
      hostnameBoost := urlBoosts.hostnameBoost
      pathBoost := urlBoosts.pathBoost })

/-- The comparator value `b.finalScore - a.finalScore` folded into a keep-order
decision: the ECMAScript sort treats a `NaN` comparator result as `0`. -/
noncomputable def sortLe (a b : RankedSearchResult) : Bool :=
  match JSNum.sub b.finalScore a.finalScore with
  | JSNum.nan => true
  | JSNum.inf => false
  | JSNum.ninf => true
  | JSNum.fin v => decide (v ≤ 0)

/-- `rankResults`: assemble per-document results, then
`results.sort((a, b) => b.finalScore - a.finalScore)` — a stable sort,
modelled by `List.mergeSort`. -/
noncomputable def rankResults (opts : SearchEngineOptions)
    (stats : CorpusStatistics) (documents : List ProcessedContent)
    (query : ProcessedQuery) : List RankedSearchResult :=
  (computeResults opts stats documents query).mergeSort sortLe

/-- Auxiliary value: the (always finite) IDF as a real number. -/
noncomputable def idfValue (stats : CorpusStatistics) (term : Str) : ℝ :=
  Real.log (1 + (stats.documentCount : ℝ) /
    ((stats.documentFrequencies (lowerStr term) : ℝ) + 1))

/-- Auxiliary comparison: descending order of the real values of (finite)
final scores; on lists of finite scores it coincides with `sortLe` and is
globally transitive and total. -/
noncomputable def leByKey (a b : RankedSearchResult) : Bool :=
  decide (b.finalScore.toReal ≤ a.finalScore.toReal)

/-! ## Helper lemmas -/

theorem toLower_toLower (c : Char) : Char.toLower (Char.toLower c) = Char.toLower c := by
  have key : ∀ n : Nat, n ≤ 90 → (Char.ofNat (n + 32)).toNat = n + 32 := by
    intro n hn
    have hv : (n + 32).isValidChar := Or.inl (by omega)
    simp [Char.ofNat, hv, Char.ofNatAux, Char.toNat, UInt32.toNat, BitVec.toNat_ofNatLt]
  unfold Char.toLower
  by_cases h : 65 ≤ c.toNat ∧ c.toNat ≤ 90
  · rw [if_pos h, key c.toNat h.2]
    have h2 : ¬ (c.toNat + 32 ≥ 65 ∧ c.toNat + 32 ≤ 90) := by omega
    rw [if_neg h2]
  · rw [if_neg h, if_neg h]

theorem lowerStr_idem (s : Str) : lowerStr (lowerStr s) = lowerStr s := by
  unfold lowerStr
  rw [List.map_map]
  exact List.map_congr_left (fun c _ => toLower_toLower c)

theorem lowerStr_length (s : Str) : (lowerStr s).length = s.length :=
  List.length_map s Char.toLower

theorem dedupSeen_spec (l : List Str) : ∀ seen : List Str,
    (∀ x ∈ dedupSeen seen l, x ∈ l ∧ x ∉ seen) ∧ (dedupSeen seen l).Nodup := by
  induction l with
  | nil => intro seen; simp [dedupSeen]
  | cons a l ih =>
    intro seen
    by_cases h : a ∈ seen
    · simp only [dedupSeen, if_pos h]
      refine ⟨fun x hx => ?_, (ih seen).2⟩
      have hx' := (ih seen).1 x hx
      exact ⟨List.mem_cons_of_mem _ hx'.1, hx'.2⟩
    · simp only [dedupSeen, if_neg h]
      constructor
      · intro x hx
        rcases List.mem_cons.mp hx with rfl | hx'
        · exact ⟨List.mem_cons_self _ _, h⟩
        · have hx'' := (ih (a :: seen)).1 x hx'
          exact ⟨List.mem_cons_of_mem _ hx''.1,
            fun hs => hx''.2 (List.mem_cons_of_mem _ hs)⟩
      · refine List.Nodup.cons ?_ (ih (a :: seen)).2
        intro hmem
        exact ((ih (a :: seen)).1 a hmem).2 (List.mem_cons_self _ _)

theorem dedupKeepFirst_nodup (l : List Str) : (dedupKeepFirst l).Nodup :=
  (dedupSeen_spec l []).2

theorem mem_of_mem_dedupKeepFirst {l : List Str} {x : Str}
    (h : x ∈ dedupKeepFirst l) : x ∈ l :=
  ((dedupSeen_spec l []).1 x h).1

theorem startsWithChars_append (o t : Str) : startsWithChars o (o ++ t) = true := by
  induction o with
  | nil => simp [startsWithChars]
  | cons c cs ih => simp [startsWithChars, ih]

theorem startsWithChars_joinSep (sep x : Str) (xs : List Str) :
    startsWithChars x (joinSep sep (x :: xs)) = true := by
  cases xs with
  | nil =>
    have := startsWithChars_append x []
    simpa [joinSep] using this
  | cons y rest =>
    show startsWithChars x (x ++ sep ++ joinSep sep (y :: rest)) = true
    rw [List.append_assoc]
    exact startsWithChars_append _ _

theorem buildExpandedQuery_startsWith (o : Str) (syns : List (List Str))
    (cs : List Str) : startsWithChars o (buildExpandedQuery o syns cs) = true :=
  startsWithChars_joinSep _ _ _

theorem buildExpandedQuery_nil (o : Str) : buildExpandedQuery o [] [] = o := by
  simp [buildExpandedQuery, joinSep]

/-! ## Claims C4, C5, C6, C9 -/

/-- Claim C4 (confirmed): on every expansion path — the remote
Gemini-response path, the local fallback, and the minimal failure
fallback — the `expandedQuery` field is exactly the concatenation of the
original query, all flattened non-empty synonyms, and up to 3 non-empty
related concepts joined with " OR " (`buildExpandedQuery`), and in
particular it starts with the original query. -/
theorem claim_c4_expandedQuery_structure (opts : QueryProcessorOptions)
    (jp : Str → Option GeminiParsed) (resp o q : Str) :
    ((parseGeminiResponse opts jp resp o).expandedQuery =
        buildExpandedQuery o (parseGeminiResponse opts jp resp o).synonyms
          (parseGeminiResponse opts jp resp o).relatedConcepts ∧
      startsWithChars o (parseGeminiResponse opts jp resp o).expandedQuery = true) ∧
    ((localQueryProcessing opts q).expandedQuery =
        buildExpandedQuery q (localQueryProcessing opts q).synonyms
          (localQueryProcessing opts q).relatedConcepts ∧
      startsWithChars q (localQueryProcessing opts q).expandedQuery = true) ∧
    ((createBasicProcessedQuery q).expandedQuery =
        buildExpandedQuery q (createBasicProcessedQuery q).synonyms
          (createBasicProcessedQuery q).relatedConcepts ∧
      startsWithChars q (createBasicProcessedQuery q).expandedQuery = true) := by
  have hbasic : ∀ r : Str, startsWithChars r r = true := by
    intro r
    simpa using startsWithChars_append r []
  refine ⟨⟨?_, ?_⟩, ⟨rfl, buildExpandedQuery_startsWith q _ _⟩, ⟨?_, ?_⟩⟩
  · cases hscan : regexScan resp with
    | none => simp [parseGeminiResponse, hscan, createBasicProcessedQuery, buildExpandedQuery_nil]
    | some span =>
      cases hparse : jp (extractJsonStr span) with
      | none => simp [parseGeminiResponse, hscan, hparse, createBasicProcessedQuery, buildExpandedQuery_nil]
      | some parsed => simp [parseGeminiResponse, hscan, hparse]
  · cases hscan : regexScan resp with
    | none => simpa [parseGeminiResponse, hscan, createBasicProcessedQuery] using hbasic o
    | some span =>
      cases hparse : jp (extractJsonStr span) with
      | none => simpa [parseGeminiResponse, hscan, hparse, createBasicProcessedQuery] using hbasic o
      | some parsed =>
        simpa [parseGeminiResponse, hscan, hparse] using buildExpandedQuery_startsWith o parsed.synonyms (parsed.relatedConcepts.take opts.maxRelatedConcepts)
  · exact (buildExpandedQuery_nil q).symm
  · exact hbasic q

/-- Claim C9 (corrected): with the local fallback expansion and default
configuration, the query "fast cars" yields `entities = ["fast", "cars"]`,
but the synonym group for "fast" is `["fasts", "unfast", "fasted"]` — the
first `maxSynonymsPerTerm = 3` candidates are the morphological variants,
which crowd out the static-table entries "quick"/"rapid"/"swift". -/
theorem claim_c9_fast_cars_local_expansion :
    (localQueryProcessing {} ("fast cars".toList)).entities =
      ["fast".toList, "cars".toList] ∧
    (localQueryProcessing {} ("fast cars".toList)).synonyms =
      [["fasts".toList, "unfast".toList, "fasted".toList],
       ["car".toList, "uncars".toList, "carsed".toList]] := by
  decide

/-- Counterexample to claim C9 as stated: the synonym group produced for
"fast" does not even contain "rapid" (so it is not set-equal to the
static-table entry `["rapid", "quick", "swift"]`). -/
theorem claim_c9_counterexample :
    "rapid".toList ∉ (localQueryProcessing {} ("fast cars".toList)).synonyms.flatten := by
  decide

/-- Claim C5 (corrected): a language-model response in which no JSON-like
span is found, or whose extracted JSON fails to parse, makes
`parseGeminiResponse` return the *basic* processed query
(`createBasicProcessedQuery`) — its internal catch — rather than the local
expansion path; no error is surfaced (the function is total). -/
theorem claim_c5_parse_failure_fallback (opts : QueryProcessorOptions)
    (jp : Str → Option GeminiParsed) (resp o : Str) :
    (regexScan resp = none →
      parseGeminiResponse opts jp resp o = createBasicProcessedQuery o) ∧
    (∀ span, regexScan resp = some span → jp (extractJsonStr span) = none →
      parseGeminiResponse opts jp resp o = createBasicProcessedQuery o) := by
  constructor
  · intro h
    simp [parseGeminiResponse, h]
  · intro span h hj
    simp [parseGeminiResponse, h, hj]

/-- Witness for claim C5's theorem at a concrete failing response. -/
theorem claim_c5_witness :
    regexScan ("I cannot produce that.".toList) = none ∧
    parseGeminiResponse {} (fun _ => none) ("I cannot produce that.".toList)
        ("fast cars".toList) =
      createBasicProcessedQuery ("fast cars".toList) :=
  ⟨by decide,
    (claim_c5_parse_failure_fallback {} (fun _ => none) _ _).1 (by decide)⟩

/-- Counterexample to claim C5 as stated: on a JSON-free response the result
is the basic processed query, which differs from the local-path result
(for "fast cars" the local path produces nonempty synonym groups). -/
theorem claim_c5_counterexample :
    parseGeminiResponse {} (fun _ => none) ("I cannot produce that.".toList)
        ("fast cars".toList) =
      createBasicProcessedQuery ("fast cars".toList) ∧
    createBasicProcessedQuery ("fast cars".toList) ≠
      localQueryProcessing {} ("fast cars".toList) := by
  constructor
  · decide
  · decide

/-- Claim C6 (corrected): every element of `getAllQueryTerms` is lower-cased
and longer than 2 characters; but because the source deduplicates *before*
lower-casing, duplicates can survive (two case-variants collapse to the
same lower-cased term).  The output is duplicate-free whenever the
contributing terms are already lower-cased. -/
theorem claim_c6_query_terms (q : ProcessedQuery) :
    (∀ t ∈ getAllQueryTerms q, t = lowerStr t ∧ 2 < t.length) ∧
    ((∀ t ∈ tokenize q.original ++ q.synonyms.flatten ++ q.entities,
        lowerStr t = t) →
      (getAllQueryTerms q).Nodup) := by
  constructor
  · intro t ht
    unfold getAllQueryTerms at ht
    rcases List.mem_map.mp ht with ⟨s, hs, rfl⟩
    refine ⟨(lowerStr_idem s).symm, ?_⟩
    have hlen := (List.mem_filter.mp hs).2
    rw [lowerStr_length]
    exact Nat.lt_of_lt_of_eq (by exact_mod_cast of_decide_eq_true hlen) rfl
  · intro hlow
    unfold getAllQueryTerms
    have hnodup : ((dedupKeepFirst (tokenize q.original ++ q.synonyms.flatten ++
        q.entities)).filter (fun term => 2 < term.length)).Nodup :=
      (dedupKeepFirst_nodup _).filter _
    have hfix : ∀ t ∈ (dedupKeepFirst (tokenize q.original ++ q.synonyms.flatten ++
        q.entities)).filter (fun term => 2 < term.length), lowerStr t = t := by
      intro t ht
      exact hlow t (mem_of_mem_dedupKeepFirst (List.mem_filter.mp ht).1)
    rw [List.map_congr_left hfix, List.map_id']
    exact hnodup

/-- Witness for claim C6's theorem: for the all-lower-case query
"fast cars" the term list is duplicate-free. -/
theorem claim_c6_witness :
    (getAllQueryTerms (createBasicProcessedQuery ("fast cars".toList))).Nodup :=
  (claim_c6_query_terms (createBasicProcessedQuery ("fast cars".toList))).2
    (by decide)

/-- Counterexample to claim C6 as stated: with the synonym "Fast" and the
entity "fast" the term list is ["fast", "fast"] — deduplication happened
before lower-casing, so the output contains duplicates. -/
theorem claim_c6_counterexample :
    getAllQueryTerms ⟨[], [["Fast".toList]], [], [], ["fast".toList], []⟩ =
      ["fast".toList, "fast".toList] ∧
    ¬ (getAllQueryTerms ⟨[], [["Fast".toList]], [], [], ["fast".toList], []⟩).Nodup := by
  constructor
  · decide
  · decide

/-! ## Claim C3: URL boosts -/

theorem foldl_boost_count (p : Str → Bool) (inc : ℚ) (l : List Str) :
    ∀ acc : ℚ,
      l.foldl (fun acc term => if p term then acc + inc else acc) acc =
        acc + inc * ((l.filter p).length : ℚ) := by
  induction l with
  | nil => intro acc; simp
  | cons a l ih =>
    intro acc
    by_cases h : p a
    · simp only [List.foldl_cons, if_pos h, ih, List.filter_cons_of_pos h,
        List.length_cons]
      push_cast
      ring
    · simp only [List.foldl_cons, if_neg h, ih, List.filter_cons_of_neg h]

/-- Claim C3 (confirmed): for a URL the constructor accepts, the hostname
boost is 0.2 times the number of query terms contained in the lower-cased
hostname and the path boost is 0.1 times the number contained in the
lower-cased path; for a URL the constructor rejects, both boosts are 0 and
no exception escapes (the function is total). -/
theorem claim_c3_url_boosts (url : Str) (q : ProcessedQuery) :
    (parseURL url = none →
      calculateURLBoosts url q = { hostnameBoost := 0, pathBoost := 0 }) ∧
    (∀ u, parseURL url = some u →
      calculateURLBoosts url q =
        { hostnameBoost := 0.2 *
            (((getAllQueryTerms q).filter
              (fun t => hasSub (lowerStr t) (lowerStr u.hostname))).length : ℚ)
          pathBoost := 0.1 *
            (((getAllQueryTerms q).filter
              (fun t => hasSub (lowerStr t) (lowerStr u.pathname))).length : ℚ) }) := by
  constructor
  · intro h
    simp [calculateURLBoosts, h]
  · intro u h
    simp only [calculateURLBoosts, h]
    have h1 := foldl_boost_count
      (fun t => hasSub (lowerStr t) (lowerStr u.hostname)) 0.2 (getAllQueryTerms q) 0
    have h2 := foldl_boost_count
      (fun t => hasSub (lowerStr t) (lowerStr u.pathname)) 0.1 (getAllQueryTerms q) 0
    rw [h1, h2]
    simp

/-- Witness for claim C3's theorem: the URL "https://fast.com/cars" parses,
one query term of "fast cars" matches the hostname and one matches the
path, so the boosts are exactly 0.2 and 0.1. -/
theorem claim_c3_witness :
    parseURL ("https://fast.com/cars".toList) =
      some { hostname := "fast.com".toList, pathname := "/cars".toList } ∧
    calculateURLBoosts ("https://fast.com/cars".toList)
        (createBasicProcessedQuery ("fast cars".toList)) =
      { hostnameBoost := 0.2, pathBoost := 0.1 } := by
  refine ⟨by decide, ?_⟩
  have h := (claim_c3_url_boosts ("https://fast.com/cars".toList)
      (createBasicProcessedQuery ("fast cars".toList))).2
    { hostname := "fast.com".toList, pathname := "/cars".toList } (by decide)
  rw [h]
  have e1 : ((getAllQueryTerms (createBasicProcessedQuery ("fast cars".toList))).filter
      (fun t => hasSub (lowerStr t)
        (lowerStr (URLParts.hostname
          { hostname := "fast.com".toList, pathname := "/cars".toList })))).length = 1 := by
    decide
  have e2 : ((getAllQueryTerms (createBasicProcessedQuery ("fast cars".toList))).filter
      (fun t => hasSub (lowerStr t)
        (lowerStr (URLParts.pathname
          { hostname := "fast.com".toList, pathname := "/cars".toList })))).length = 1 := by
    decide
  rw [e1, e2]
  norm_num

/-! ## Claim C8: snippets -/

theorem createSnippet_length (doc : ProcessedContent) (q : ProcessedQuery) :
    (createSnippet doc q).length ≤ 203 := by
  have h3 : ("...".toList).length = 3 := by decide
  have hfb : (doc.text.take 200 ++
      (if 200 < doc.text.length then "...".toList else [])).length ≤ 203 := by
    by_cases h : 200 < doc.text.length <;> simp [h, List.length_take, h3]
  simp only [createSnippet]
  split
  · exact hfb
  · rename_i top tail heq
    by_cases htop : 0 < top.2
    · rw [if_pos htop]
      by_cases hlen : 200 < (trimChars top.1).length
      · rw [if_pos hlen]
        simp [List.length_take, h3]
      · rw [if_neg hlen]
        omega
    · rw [if_neg htop]
      exact hfb

theorem createSnippet_of_no_match (doc : ProcessedContent) (q : ProcessedQuery)
    (h : ∀ s ∈ snippetSentences doc.text, sentenceScore (getAllQueryTerms q) s = 0) :
    createSnippet doc q =
      doc.text.take 200 ++ (if 200 < doc.text.length then "...".toList else []) := by
  simp only [createSnippet]
  split
  · rfl
  · rename_i top tail heq
    have hmem : top ∈ (List.map (fun s => (s, sentenceScore (getAllQueryTerms q) s))
        (snippetSentences doc.text)).mergeSort (fun a b => decide (b.2 ≤ a.2)) := by
      rw [heq]
      exact List.mem_cons_self _ _
    rw [List.mem_mergeSort] at hmem
    rcases List.mem_map.mp hmem with ⟨s, hsmem, rfl⟩
    rw [if_neg]
    simpa using h s hsmem

/-- Claim C8 (corrected): every snippet has length at most 203 (at most 200
on the matched-sentence path, 197 + ellipsis when truncated); but when no
sentence contains any query term, the snippet is *not* always the first 200
characters of the raw text: the source appends a trailing ellipsis whenever
the text is longer than 200 characters. -/
theorem claim_c8_snippet_bounds (doc : ProcessedContent) (q : ProcessedQuery) :
    (createSnippet doc q).length ≤ 203 ∧
    ((∀ s ∈ snippetSentences doc.text, sentenceScore (getAllQueryTerms q) s = 0) →
      createSnippet doc q =
        doc.text.take 200 ++ (if 200 < doc.text.length then "...".toList else [])) :=
  ⟨createSnippet_length doc q, createSnippet_of_no_match doc q⟩

/-- Witness for claim C8's theorem: a short unmatched text is its own
snippet (the first 200 characters with no ellipsis). -/
theorem claim_c8_witness :
    createSnippet { url := [], title := [], text := "Short text".toList }
        (createBasicProcessedQuery ("zzzz".toList)) =
      ("Short text".toList).take 200 ++
        (if 200 < ("Short text".toList).length then "...".toList else []) :=
  (claim_c8_snippet_bounds
      { url := [], title := [], text := "Short text".toList }
      (createBasicProcessedQuery ("zzzz".toList))).2 (by decide)

set_option maxRecDepth 10000 in
unseal List.merge List.mergeSort in
/-- Counterexample to claim C8 as stated: for a 201-character text with no
matching sentence, the snippet is the first 200 characters *plus* an
ellipsis (203 characters), not the first 200 characters of the raw text. -/
theorem claim_c8_counterexample :
    createSnippet { url := [], title := [], text := List.replicate 201 'a' }
        (createBasicProcessedQuery ("xyzq".toList)) ≠
      (List.replicate 201 'a').take 200 := by
  decide

/-! ## Claims C10 and C2: BM25 parameters and degenerate scores -/

theorem resolveK1_default : resolveK1 DEFAULT_OPTIONS = 1.2 := by
  simp [resolveK1, DEFAULT_OPTIONS, jsOrNum]

theorem resolveB_default : resolveB DEFAULT_OPTIONS = 0.75 := by
  simp [resolveB, DEFAULT_OPTIONS, jsOrNum]

theorem resolveK1_ne_zero (opts : SearchEngineOptions) : resolveK1 opts ≠ 0 := by
  unfold resolveK1 jsOrNum
  cases hx : opts.bm25Params.bind BM25Params.k1 with
  | none => norm_num
  | some x =>
    by_cases h : x = 0
    · simp [h]
      norm_num
    · simp [h]

theorem resolveB_ne_zero (opts : SearchEngineOptions) : resolveB opts ≠ 0 := by
  unfold resolveB jsOrNum
  cases hx : opts.bm25Params.bind BM25Params.b with
  | none => norm_num
  | some x =>
    by_cases h : x = 0
    · simp [h]
      norm_num
    · simp [h]

/-- Claim C10 (confirmed): in every configuration, the effective BM25
parameters are never 0; whenever the configured `bm25Params.k1` is 0
(whatever `b` is), the `||` fallback silently substitutes the default
`k1 = 1.2` and the scorer behaves exactly as with `k1 = 1.2` and the same
`b`; symmetrically, a configured `bm25Params.b = 0` is silently replaced by
the default 0.75.  So `k1 = 0` (no term-frequency saturation) and `b = 0`
(no length normalization) cannot be selected through configuration. -/
theorem claim_c10_zero_params (opts : SearchEngineOptions) (p : BM25Params)
    (stats : CorpusStatistics) (q : ProcessedQuery) (doc : ProcessedContent) :
    (resolveK1 opts ≠ 0 ∧ resolveB opts ≠ 0) ∧
    (opts.bm25Params = some p → p.k1 = some 0 →
      resolveK1 opts = 1.2 ∧
      calculateBM25Score opts stats q doc =
        calculateBM25Score { opts with bm25Params := some { p with k1 := some 1.2 } }
          stats q doc) ∧
    (opts.bm25Params = some p → p.b = some 0 →
      resolveB opts = 0.75 ∧
      calculateBM25Score opts stats q doc =
        calculateBM25Score { opts with bm25Params := some { p with b := some 0.75 } }
          stats q doc) := by
  refine ⟨⟨resolveK1_ne_zero opts, resolveB_ne_zero opts⟩, ?_, ?_⟩
  · intro hbp hk
    have h1 : resolveK1 opts = 1.2 := by
      simp [resolveK1, jsOrNum, hbp, hk]
    have h2 : resolveK1 { opts with bm25Params := some { p with k1 := some 1.2 } } = 1.2 := by
      simp [resolveK1, jsOrNum]
    have h3 : resolveB { opts with bm25Params := some { p with k1 := some 1.2 } } =
        resolveB opts := by
      simp [resolveB, hbp]
    refine ⟨h1, ?_⟩
    simp only [calculateBM25Score, h1, h2, h3]
  · intro hbp hb
    have h1 : resolveB opts = 0.75 := by
      simp [resolveB, jsOrNum, hbp, hb]
    have h2 : resolveB { opts with bm25Params := some { p with b := some 0.75 } } = 0.75 := by
      simp [resolveB, jsOrNum]
    have h3 : resolveK1 { opts with bm25Params := some { p with b := some 0.75 } } =
        resolveK1 opts := by
      simp [resolveK1, hbp]
    refine ⟨h1, ?_⟩
    simp only [calculateBM25Score, h1, h2, h3]

/-- Witness for claim C10's theorem at two concrete configurations:
`k1 = 0` with `b = 0.5`, and `k1 = 2` with `b = 0`. -/
theorem claim_c10_witness :
    (resolveK1 { bm25Params := some { k1 := some 0, b := some 0.5 } } = 1.2 ∧
      calculateBM25Score { bm25Params := some { k1 := some 0, b := some 0.5 } }
          (updateDocumentStatistics []) (createBasicProcessedQuery [])
          ⟨"x".toList, [], []⟩ =
        calculateBM25Score { bm25Params := some { k1 := some 1.2, b := some 0.5 } }
          (updateDocumentStatistics []) (createBasicProcessedQuery [])
          ⟨"x".toList, [], []⟩) ∧
    (resolveB { bm25Params := some { k1 := some 2, b := some 0 } } = 0.75 ∧
      calculateBM25Score { bm25Params := some { k1 := some 2, b := some 0 } }
          (updateDocumentStatistics []) (createBasicProcessedQuery [])
          ⟨"x".toList, [], []⟩ =
        calculateBM25Score { bm25Params := some { k1 := some 2, b := some 0.75 } }
          (updateDocumentStatistics []) (createBasicProcessedQuery [])
          ⟨"x".toList, [], []⟩) :=
  ⟨(claim_c10_zero_params
      { bm25Params := some { k1 := some 0, b := some 0.5 } }
      { k1 := some 0, b := some 0.5 }
      (updateDocumentStatistics []) (createBasicProcessedQuery [])
      ⟨"x".toList, [], []⟩).2.1 rfl rfl,
   (claim_c10_zero_params
      { bm25Params := some { k1 := some 2, b := some 0 } }
      { k1 := some 2, b := some 0 }
      (updateDocumentStatistics []) (createBasicProcessedQuery [])
      ⟨"x".toList, [], []⟩).2.2 rfl rfl⟩

theorem calculateInverseDocumentFrequency_eq (stats : CorpusStatistics) (term : Str) :
    calculateInverseDocumentFrequency stats term = JSNum.fin (idfValue stats term) := by
  unfold calculateInverseDocumentFrequency idfValue
  have hden : ((stats.documentFrequencies (lowerStr term) : ℝ) + 1) ≠ 0 := by positivity
  have hpos : (0:ℝ) < 1 + (stats.documentCount : ℝ) /
      ((stats.documentFrequencies (lowerStr term) : ℝ) + 1) := by positivity
  simp [JSNum.div, JSNum.add, JSNum.log, hden, hpos]

theorem idfValue_nonneg (stats : CorpusStatistics) (term : Str) :
    0 ≤ idfValue stats term := by
  unfold idfValue
  refine Real.log_nonneg ?_
  have : (0:ℝ) ≤ (stats.documentCount : ℝ) /
      ((stats.documentFrequencies (lowerStr term) : ℝ) + 1) := by positivity
  linarith

theorem foldl_jsadd_zero {f : Str → JSNum} (l : List Str)
    (h : ∀ t ∈ l, f t = JSNum.fin 0) :
    l.foldl (fun acc t => JSNum.add acc (f t)) (JSNum.fin 0) = JSNum.fin 0 := by
  induction l with
  | nil => rfl
  | cons a l ih =>
    simp only [List.foldl_cons]
    rw [h a (List.mem_cons_self _ _)]
    have h00 : JSNum.add (JSNum.fin 0) (JSNum.fin 0) = JSNum.fin 0 := by
      simp [JSNum.add]
    rw [h00]
    exact ih (fun t ht => h t (List.mem_cons_of_mem _ ht))

theorem calculateTermFrequency_nil (term : Str) :
    calculateTermFrequency term [] = 0 := rfl

theorem tfidfTermScore_of_tf_zero (stats : CorpusStatistics) (docTerms : List Str)
    (term : Str) (h : calculateTermFrequency term docTerms = 0) :
    tfidfTermScore stats docTerms term = JSNum.fin 0 := by
  unfold tfidfTermScore
  rw [h, calculateInverseDocumentFrequency_eq]
  simp [JSNum.mul]

theorem tfidf_empty_doc_nan (stats : CorpusStatistics) (q : ProcessedQuery)
    (doc : ProcessedContent) (h : tokenize doc.text = []) :
    calculateTFIDFScore stats q doc = JSNum.nan := by
  simp only [calculateTFIDFScore, h]
  rw [foldl_jsadd_zero _ (fun t _ => tfidfTermScore_of_tf_zero stats [] t rfl)]
  simp [JSNum.sqrt, JSNum.div, Real.sqrt_zero]

theorem bm25TermScore_empty_doc (stats : CorpusStatistics) (term : Str)
    (havg : stats.averageDocumentLength ≠ 0) :
    bm25TermScore 1.2 0.75 stats [] term = JSNum.fin 0 := by
  unfold bm25TermScore
  rw [calculateTermFrequency_nil, calculateInverseDocumentFrequency_eq]
  simp [JSNum.div, JSNum.add, JSNum.mul, havg]
  norm_num

theorem bm25_empty_doc_zero (stats : CorpusStatistics) (q : ProcessedQuery)
    (doc : ProcessedContent) (h : tokenize doc.text = [])
    (havg : 0 < stats.averageDocumentLength) :
    calculateBM25Score DEFAULT_OPTIONS stats q doc = JSNum.fin 0 := by
  simp only [calculateBM25Score, h, resolveK1_default, resolveB_default]
  exact foldl_jsadd_zero _ (fun t _ => bm25TermScore_empty_doc stats t (ne_of_gt havg))

theorem updateDocumentStatistics_nil :
    updateDocumentStatistics [] =
      { documentFrequencies := fun _ => 0, documentCount := 0,
        averageDocumentLength := 0 } := by
  unfold updateDocumentStatistics
  norm_num

theorem idfValue_empty_corpus (term : Str) :
    idfValue (updateDocumentStatistics []) term = 0 := by
  rw [updateDocumentStatistics_nil]
  unfold idfValue
  norm_num

theorem tfidf_empty_corpus (q : ProcessedQuery) (doc : ProcessedContent)
    (h : 1 ≤ (tokenize doc.text).length) :
    calculateTFIDFScore (updateDocumentStatistics []) q doc = JSNum.fin 0 := by
  simp only [calculateTFIDFScore]
  have hterm : ∀ t ∈ getAllQueryTerms q,
      tfidfTermScore (updateDocumentStatistics []) (tokenize doc.text) t = JSNum.fin 0 := by
    intro t _
    unfold tfidfTermScore
    rw [calculateInverseDocumentFrequency_eq, idfValue_empty_corpus]
    simp [JSNum.mul]
  rw [foldl_jsadd_zero _ hterm]
  have hL : (0:ℝ) < ((tokenize doc.text).length : ℝ) := by exact_mod_cast h
  have hs : Real.sqrt ((tokenize doc.text).length : ℝ) ≠ 0 :=
    ne_of_gt (Real.sqrt_pos.mpr hL)
  simp [JSNum.sqrt, JSNum.div, le_of_lt hL, hs]

theorem bm25_empty_corpus (q : ProcessedQuery) (doc : ProcessedContent)
    (h : 1 ≤ (tokenize doc.text).length) :
    calculateBM25Score DEFAULT_OPTIONS (updateDocumentStatistics []) q doc = JSNum.fin 0 := by
  simp only [calculateBM25Score, resolveK1_default, resolveB_default]
  refine foldl_jsadd_zero _ (fun t _ => ?_)
  unfold bm25TermScore
  rw [calculateInverseDocumentFrequency_eq, idfValue_empty_corpus,
    updateDocumentStatistics_nil]
  have hL : (0:ℝ) < ((tokenize doc.text).length : ℝ) := by exact_mod_cast h
  simp [JSNum.div, JSNum.add, JSNum.mul, hL, ne_of_gt hL]
  norm_num

/-- Claim C2 (corrected): a document with no tokens scores `NaN` under
TF-IDF (the `score / Math.sqrt(0)` division is `0/0`), and 0 under BM25
when the average document length is positive; against the empty-corpus
statistics, any document with at least one token scores a finite 0 under
both algorithms, but zero-token documents still produce `NaN` under
TF-IDF. -/
theorem claim_c2_degenerate_scores (stats : CorpusStatistics) (q : ProcessedQuery)
    (doc : ProcessedContent) :
    (tokenize doc.text = [] → calculateTFIDFScore stats q doc = JSNum.nan) ∧
    (tokenize doc.text = [] → 0 < stats.averageDocumentLength →
      calculateBM25Score DEFAULT_OPTIONS stats q doc = JSNum.fin 0) ∧
    (1 ≤ (tokenize doc.text).length →
      calculateTFIDFScore (updateDocumentStatistics []) q doc = JSNum.fin 0 ∧
      calculateBM25Score DEFAULT_OPTIONS (updateDocumentStatistics []) q doc = JSNum.fin 0) :=
  ⟨tfidf_empty_doc_nan stats q doc,
   bm25_empty_doc_zero stats q doc,
   fun h => ⟨tfidf_empty_corpus q doc h, bm25_empty_corpus q doc h⟩⟩

/-- Witness for claim C2's theorem at concrete documents: "ab" tokenizes to
nothing (NaN under TF-IDF, 0 under BM25 against a one-document corpus);
"funding" has one token and scores finite 0 against the empty corpus. -/
theorem claim_c2_witness :
    calculateTFIDFScore (updateDocumentStatistics [⟨"x".toList, [], "funding".toList⟩])
        (createBasicProcessedQuery ("funding".toList)) ⟨"y".toList, [], "ab".toList⟩ =
      JSNum.nan ∧
    calculateBM25Score DEFAULT_OPTIONS
        (updateDocumentStatistics [⟨"x".toList, [], "funding".toList⟩])
        (createBasicProcessedQuery ("funding".toList)) ⟨"y".toList, [], "ab".toList⟩ =
      JSNum.fin 0 ∧
    calculateTFIDFScore (updateDocumentStatistics [])
        (createBasicProcessedQuery ("funding".toList)) ⟨"x".toList, [], "funding".toList⟩ =
      JSNum.fin 0 ∧
    calculateBM25Score DEFAULT_OPTIONS (updateDocumentStatistics [])
        (createBasicProcessedQuery ("funding".toList)) ⟨"x".toList, [], "funding".toList⟩ =
      JSNum.fin 0 := by
  have havg : 0 < (updateDocumentStatistics
      [⟨"x".toList, [], "funding".toList⟩]).averageDocumentLength := by
    unfold updateDocumentStatistics
    norm_num
    decide
  refine ⟨(claim_c2_degenerate_scores
      (updateDocumentStatistics [⟨"x".toList, [], "funding".toList⟩])
      (createBasicProcessedQuery ("funding".toList))
      ⟨"y".toList, [], "ab".toList⟩).1 (by decide),
    (claim_c2_degenerate_scores
      (updateDocumentStatistics [⟨"x".toList, [], "funding".toList⟩])
      (createBasicProcessedQuery ("funding".toList))
      ⟨"y".toList, [], "ab".toList⟩).2.1 (by decide) havg,
    ((claim_c2_degenerate_scores (updateDocumentStatistics [])
      (createBasicProcessedQuery ("funding".toList))
      ⟨"x".toList, [], "funding".toList⟩).2.2 (by decide)).1,
    ((claim_c2_degenerate_scores (updateDocumentStatistics [])
      (createBasicProcessedQuery ("funding".toList))
      ⟨"x".toList, [], "funding".toList⟩).2.2 (by decide)).2⟩

/-- Counterexample to claim C2 as stated: against the empty-corpus
statistics, the zero-token document "ab" scores `NaN` under TF-IDF — not 0
and not a finite number. -/
theorem claim_c2_counterexample :
    calculateTFIDFScore (updateDocumentStatistics [])
        (createBasicProcessedQuery ("funding".toList)) ⟨"y".toList, [], "ab".toList⟩ =
      JSNum.nan ∧
    (calculateTFIDFScore (updateDocumentStatistics [])
        (createBasicProcessedQuery ("funding".toList)) ⟨"y".toList, [], "ab".toList⟩).isFinite =
      false := by
  have h := tfidf_empty_doc_nan (updateDocumentStatistics [])
    (createBasicProcessedQuery ("funding".toList)) ⟨"y".toList, [], "ab".toList⟩ (by decide)
  exact ⟨h, by rw [h]; rfl⟩

/-! ## Claim C7: monotone IDF -/

theorem bm25TermScore_eval (k1 b : ℝ) (stats : CorpusStatistics)
    (docTerms : List Str) (t : Str)
    (hk1 : 0 ≤ k1) (hb0 : 0 ≤ b) (hb1 : b ≤ 1)
    (havg : 0 < stats.averageDocumentLength)
    (htf : 1 ≤ calculateTermFrequency t docTerms) :
    bm25TermScore k1 b stats docTerms t =
      JSNum.fin (idfValue stats t *
        ((calculateTermFrequency t docTerms : ℝ) * (k1 + 1) /
          ((calculateTermFrequency t docTerms : ℝ) +
            k1 * (1 - b + b * ((docTerms.length : ℝ) / stats.averageDocumentLength))))) := by
  unfold bm25TermScore
  rw [calculateInverseDocumentFrequency_eq]
  have havg' : stats.averageDocumentLength ≠ 0 := ne_of_gt havg
  have hnrm : 0 ≤ 1 - b + b * ((docTerms.length : ℝ) / stats.averageDocumentLength) := by
    have h1 : 0 ≤ 1 - b := by linarith
    have h2 : 0 ≤ b * ((docTerms.length : ℝ) / stats.averageDocumentLength) := by positivity
    linarith
  have htf' : (0:ℝ) < (calculateTermFrequency t docTerms : ℝ) := by exact_mod_cast htf
  have hden : (calculateTermFrequency t docTerms : ℝ) +
      k1 * (1 - b + b * ((docTerms.length : ℝ) / stats.averageDocumentLength)) ≠ 0 := by
    have : 0 ≤ k1 * (1 - b + b * ((docTerms.length : ℝ) / stats.averageDocumentLength)) := by
      positivity
    nlinarith
  simp [JSNum.div, JSNum.add, JSNum.mul, havg', hden]

theorem bm25_factor_pos (k1 b : ℝ) (stats : CorpusStatistics)
    (docTerms : List Str) (t : Str)
    (hk1 : 0 ≤ k1) (hb0 : 0 ≤ b) (hb1 : b ≤ 1)
    (havg : 0 < stats.averageDocumentLength)
    (htf : 1 ≤ calculateTermFrequency t docTerms) :
    0 < (calculateTermFrequency t docTerms : ℝ) * (k1 + 1) /
      ((calculateTermFrequency t docTerms : ℝ) +
        k1 * (1 - b + b * ((docTerms.length : ℝ) / stats.averageDocumentLength))) := by
  have htf' : (0:ℝ) < (calculateTermFrequency t docTerms : ℝ) := by exact_mod_cast htf
  have hnrm : 0 ≤ 1 - b + b * ((docTerms.length : ℝ) / stats.averageDocumentLength) := by
    have h1 : 0 ≤ 1 - b := by linarith
    have h2 : 0 ≤ b * ((docTerms.length : ℝ) / stats.averageDocumentLength) := by positivity
    linarith
  have hk : 0 ≤ k1 * (1 - b + b * ((docTerms.length : ℝ) / stats.averageDocumentLength)) := by
    positivity
  apply div_pos
  · nlinarith
  · nlinarith

theorem idfValue_strict_anti (stats : CorpusStatistics) (tA tB : Str)
    (hdf : stats.documentFrequencies (lowerStr tA) < stats.documentFrequencies (lowerStr tB))
    (hN : 1 ≤ stats.documentCount) :
    idfValue stats tB < idfValue stats tA := by
  unfold idfValue
  have hNpos : (0:ℝ) < (stats.documentCount : ℝ) := by exact_mod_cast hN
  have h1 : (0:ℝ) < (stats.documentFrequencies (lowerStr tA) : ℝ) + 1 := by positivity
  have h2 : (stats.documentFrequencies (lowerStr tA) : ℝ) + 1 <
      (stats.documentFrequencies (lowerStr tB) : ℝ) + 1 := by
    exact_mod_cast Nat.add_lt_add_right hdf 1
  have hd := div_lt_div_of_pos_left hNpos h1 h2
  apply Real.log_lt_log
  · positivity
  · linarith

/-- Claim C7 (corrected): rarer terms contribute strictly more — per-term
contributions under both TF-IDF and BM25 are strictly larger for the term
with the smaller document frequency — provided the shared term frequency is
at least 1 and the corpus is nonempty (for `tf = 0`, or an empty corpus,
both contributions are 0 and the strict inequality of the original claim
fails). -/
theorem claim_c7_rarer_terms_score_higher (stats : CorpusStatistics)
    (docTerms : List Str) (tA tB : Str) (k1 b : ℝ)
    (htf : calculateTermFrequency tA docTerms = calculateTermFrequency tB docTerms)
    (htf1 : 1 ≤ calculateTermFrequency tA docTerms)
    (hdf : stats.documentFrequencies (lowerStr tA) < stats.documentFrequencies (lowerStr tB))
    (hN : 1 ≤ stats.documentCount)
    (hk1 : 0 ≤ k1) (hb0 : 0 ≤ b) (hb1 : b ≤ 1)
    (havg : 0 < stats.averageDocumentLength) :
    JSNum.lt (tfidfTermScore stats docTerms tB) (tfidfTermScore stats docTerms tA) ∧
    JSNum.lt (bm25TermScore k1 b stats docTerms tB) (bm25TermScore k1 b stats docTerms tA) := by
  have hidf := idfValue_strict_anti stats tA tB hdf hN
  have htfB : 1 ≤ calculateTermFrequency tB docTerms := htf ▸ htf1
  have htf' : (0:ℝ) < (calculateTermFrequency tA docTerms : ℝ) := by exact_mod_cast htf1
  constructor
  · unfold tfidfTermScore
    rw [calculateInverseDocumentFrequency_eq, calculateInverseDocumentFrequency_eq, ← htf]
    simp only [JSNum.mul, JSNum.lt]
    exact mul_lt_mul_of_pos_left hidf htf'
  · rw [bm25TermScore_eval k1 b stats docTerms tA hk1 hb0 hb1 havg htf1,
      bm25TermScore_eval k1 b stats docTerms tB hk1 hb0 hb1 havg htfB, ← htf]
    simp only [JSNum.lt]
    exact mul_lt_mul_of_pos_right hidf
      (bm25_factor_pos k1 b stats docTerms tA hk1 hb0 hb1 havg htf1)

/-- Witness for claim C7's theorem on a concrete two-term document and a
concrete corpus in which "aaa" is rarer than "bbb". -/
theorem claim_c7_witness :
    (calculateTermFrequency ("aaa".toList) ["aaa".toList, "bbb".toList] =
      calculateTermFrequency ("bbb".toList) ["aaa".toList, "bbb".toList]) ∧
    JSNum.lt
      (tfidfTermScore
        { documentFrequencies := fun t => if t = "bbb".toList then 2 else 1,
          documentCount := 2, averageDocumentLength := 1 }
        ["aaa".toList, "bbb".toList] ("bbb".toList))
      (tfidfTermScore
        { documentFrequencies := fun t => if t = "bbb".toList then 2 else 1,
          documentCount := 2, averageDocumentLength := 1 }
        ["aaa".toList, "bbb".toList] ("aaa".toList)) ∧
    JSNum.lt
      (bm25TermScore 1.2 0.75
        { documentFrequencies := fun t => if t = "bbb".toList then 2 else 1,
          documentCount := 2, averageDocumentLength := 1 }
        ["aaa".toList, "bbb".toList] ("bbb".toList))
      (bm25TermScore 1.2 0.75
        { documentFrequencies := fun t => if t = "bbb".toList then 2 else 1,
          documentCount := 2, averageDocumentLength := 1 }
        ["aaa".toList, "bbb".toList] ("aaa".toList)) := by
  have h := claim_c7_rarer_terms_score_higher
    { documentFrequencies := fun t => if t = "bbb".toList then 2 else 1,
      documentCount := 2, averageDocumentLength := 1 }
    ["aaa".toList, "bbb".toList] ("aaa".toList) ("bbb".toList) 1.2 0.75
    (by decide) (by decide) (by decide) (by decide)
    (by norm_num) (by norm_num) (by norm_num) (by norm_num)
  exact ⟨by decide, h.1, h.2⟩

/-- Counterexample to claim C7 as stated: with equal term frequency 0 (the
term occurs in neither position of the document), both per-term TF-IDF
contributions are 0, so the rarer term's contribution does not exceed the
more frequent term's. -/
theorem claim_c7_counterexample :
    (calculateTermFrequency ("aaa".toList) [] = calculateTermFrequency ("bbb".toList) []) ∧
    (let st : CorpusStatistics :=
      { documentFrequencies := fun t => if t = "bbb".toList then 1 else 0,
        documentCount := 1, averageDocumentLength := 1 };
     st.documentFrequencies (lowerStr ("aaa".toList)) <
        st.documentFrequencies (lowerStr ("bbb".toList)) ∧
      1 ≤ st.documentCount ∧
      ¬ JSNum.lt (tfidfTermScore st [] ("bbb".toList)) (tfidfTermScore st [] ("aaa".toList))) := by
  refine ⟨rfl, by decide, by decide, ?_⟩
  rw [tfidfTermScore_of_tf_zero _ _ _ (calculateTermFrequency_nil _),
    tfidfTermScore_of_tf_zero _ _ _ (calculateTermFrequency_nil _)]
  simp [JSNum.lt]

/-! ## Claim C1: the ranking orchestrator -/

theorem sortLe_eq_leByKey {a b : RankedSearchResult} {x y : ℝ}
    (ha : a.finalScore = JSNum.fin x) (hb : b.finalScore = JSNum.fin y) :
    sortLe a b = leByKey a b := by
  unfold sortLe leByKey
  rw [ha, hb]
  simp only [JSNum.sub, JSNum.toReal]
  rw [decide_eq_decide]
  exact sub_nonpos

theorem leByKey_trans (a b c : RankedSearchResult)
    (hab : leByKey a b) (hbc : leByKey b c) : leByKey a c := by
  unfold leByKey at *
  rw [decide_eq_true_eq] at *
  exact le_trans hbc hab

theorem leByKey_total (a b : RankedSearchResult) : leByKey a b || leByKey b a := by
  unfold leByKey
  rcases le_total a.finalScore.toReal b.finalScore.toReal with h | h <;> simp [h]

theorem rankResults_eq_mergeSort_leByKey (opts : SearchEngineOptions)
    (stats : CorpusStatistics) (docs : List ProcessedContent) (q : ProcessedQuery)
    (h : ∀ r ∈ computeResults opts stats docs q, ∃ x, r.finalScore = JSNum.fin x) :
    rankResults opts stats docs q =
      (computeResults opts stats docs q).mergeSort leByKey := by
  unfold rankResults
  have hl : ∀ a ∈ computeResults opts stats docs q,
      ∀ b ∈ computeResults opts stats docs q,
      sortLe a b = leByKey (id a) (id b) := by
    intro a ha b hb
    rcases h a ha with ⟨x, hx⟩
    rcases h b hb with ⟨y, hy⟩
    simpa using sortLe_eq_leByKey hx hy
  have hm := List.map_mergeSort hl
  simpa using hm

/-- Claim C1 (corrected): every ranked result's `finalScore` is
`score * (1 + hostnameBoost + pathBoost)`; and *when every computed final
score is a finite number*, the output of `rankResults` is sorted descending
by `finalScore` (every adjacent pair satisfies `>=`) and stable (a tied
pair keeps its input order).  With a `NaN` final score (TF-IDF on a
zero-token document) the adjacent-pair guarantee fails. -/
theorem claim_c1_rank_and_sort (opts : SearchEngineOptions) (stats : CorpusStatistics)
    (docs : List ProcessedContent) (q : ProcessedQuery) :
    (∀ r ∈ rankResults opts stats docs q,
      r.finalScore = JSNum.mul r.score
        (JSNum.fin (1 + (r.hostnameBoost : ℝ) + (r.pathBoost : ℝ)))) ∧
    ((∀ r ∈ computeResults opts stats docs q, ∃ x, r.finalScore = JSNum.fin x) →
      List.Chain' (fun a b => JSNum.le b.finalScore a.finalScore)
        (rankResults opts stats docs q) ∧
      (∀ a b : RankedSearchResult,
        List.Sublist [a, b] (computeResults opts stats docs q) →
        a.finalScore = b.finalScore →
        List.Sublist [a, b] (rankResults opts stats docs q))) := by
  constructor
  · intro r hr
    unfold rankResults at hr
    rw [List.mem_mergeSort] at hr
    unfold computeResults at hr
    rcases List.mem_map.mp hr with ⟨doc, _, rfl⟩
    rfl
  · intro h
    have heq := rankResults_eq_mergeSort_leByKey opts stats docs q h
    constructor
    · have hp := @List.sorted_mergeSort RankedSearchResult leByKey
        leByKey_trans (fun a b => leByKey_total a b)
        (computeResults opts stats docs q)
      have hp2 : List.Pairwise
          (fun a b => JSNum.le b.finalScore a.finalScore)
          ((computeResults opts stats docs q).mergeSort leByKey) := by
        refine hp.imp_of_mem ?_
        intro a b ha hb hab
        rw [List.mem_mergeSort] at ha hb
        rcases h a ha with ⟨x, hx⟩
        rcases h b hb with ⟨y, hy⟩
        rw [hx, hy]
        unfold leByKey at hab
        rw [decide_eq_true_eq, hx, hy] at hab
        simpa [JSNum.le] using hab
      rw [heq]
      exact hp2.chain'
    · intro a b hsub hfs
      rw [heq]
      refine List.pair_sublist_mergeSort leByKey_trans
        (fun a b => leByKey_total a b) ?_ hsub
      unfold leByKey
      rw [hfs]
      simp

/-- Witness for claim C1's theorem on a concrete one-document batch with an
empty query (every final score is the finite 0). -/
theorem claim_c1_witness :
    List.Chain' (fun a b => JSNum.le b.finalScore a.finalScore)
      (rankResults DEFAULT_OPTIONS
        (updateDocumentStatistics [⟨"x".toList, [], "funding".toList⟩])
        [⟨"x".toList, [], "funding".toList⟩]
        (createBasicProcessedQuery [])) := by
  have hq : getAllQueryTerms (createBasicProcessedQuery []) = [] := by decide
  have hfin : ∀ r ∈ computeResults DEFAULT_OPTIONS
      (updateDocumentStatistics [⟨"x".toList, [], "funding".toList⟩])
      [⟨"x".toList, [], "funding".toList⟩]
      (createBasicProcessedQuery []), ∃ x, r.finalScore = JSNum.fin x := by
    intro r hr
    simp only [computeResults, List.map_cons, List.map_nil, List.mem_singleton] at hr
    subst hr
    simp only [calculateBM25Score, hq, List.foldl_nil, DEFAULT_OPTIONS]
    exact ⟨0, by simp [JSNum.mul]⟩
  exact ((claim_c1_rank_and_sort _ _ _ _).2 hfin).1

/-- Counterexample to claim C1 as stated: under the TF-IDF configuration, a
batch of two zero-token documents ranks with `NaN` final scores, and the
adjacent output pair violates `result[0].finalScore >= result[1].finalScore`
(no comparison with `NaN` holds). -/
theorem claim_c1_counterexample :
    ¬ List.Chain' (fun a b => JSNum.le b.finalScore a.finalScore)
      (rankResults { useBM25 := false }
        (updateDocumentStatistics
          [⟨"y".toList, [], "ab".toList⟩, ⟨"y".toList, [], "ab".toList⟩])
        [⟨"y".toList, [], "ab".toList⟩, ⟨"y".toList, [], "ab".toList⟩]
        (createBasicProcessedQuery ("funding".toList))) := by
  intro hchain
  set docAB : ProcessedContent := ⟨"y".toList, [], "ab".toList⟩ with hdoc
  set qF := createBasicProcessedQuery ("funding".toList) with hq
  set statsT := updateDocumentStatistics [docAB, docAB] with hstats
  have hscore : calculateTFIDFScore statsT qF docAB = JSNum.nan :=
    tfidf_empty_doc_nan statsT qF docAB (by decide)
  -- the single mapped result record
  set X : RankedSearchResult :=
    { url := docAB.url
      title := docAB.title
      snippet := createSnippet docAB qF
      score := calculateTFIDFScore statsT qF docAB
      finalScore := JSNum.mul (calculateTFIDFScore statsT qF docAB)
        (JSNum.fin (1 + ((calculateURLBoosts docAB.url qF).hostnameBoost : ℝ) +
          ((calculateURLBoosts docAB.url qF).pathBoost : ℝ)))
      hostnameBoost := (calculateURLBoosts docAB.url qF).hostnameBoost
      pathBoost := (calculateURLBoosts docAB.url qF).pathBoost } with hX
  have hfsX : X.finalScore = JSNum.nan := by
    rw [hX]
    simp only [hscore]
    rfl
  have hcr : computeResults { useBM25 := false } statsT [docAB, docAB] qF = [X, X] := rfl
  have hmem : ∀ z ∈ rankResults { useBM25 := false } statsT [docAB, docAB] qF, z = X := by
    intro z hz
    unfold rankResults at hz
    rw [List.mem_mergeSort, hcr] at hz
    simpa using hz
  have hlen : (rankResults { useBM25 := false } statsT [docAB, docAB] qF).length = 2 := by
    unfold rankResults
    rw [List.length_mergeSort, hcr]
    rfl
  have hout : rankResults { useBM25 := false } statsT [docAB, docAB] qF = [X, X] := by
    have := List.eq_replicate_of_mem hmem
    rw [hlen] at this
    simpa using this
  rw [hout] at hchain
  have hRel := (List.chain'_cons.mp hchain).1
  rw [hfsX] at hRel
  simp [JSNum.le] at hRel
